import Mathlib

/-!
Verification of the foods CRUD router (`src/app/routes/food_routes.js`).

The router wires five Express handlers (index, show, create, update, destroy)
over a Mongoose `Food` model.  We embed the JSON values flowing through the
handlers, the document store, and each handler's promise chain as pure Lean
functions.  External store failures (a rejected `find`/`create`/`updateOne`/
`deleteOne` promise) are modelled by an explicit `StoreBehavior` record of
failure flags.

The helper modules `lib/custom_errors` (`handle404`, `requireOwnership`) and
`lib/remove_blank_fields` (`removeBlanks`) are required by the router but are
not part of the source tree; they are modelled from the spec, as marked on
their doc comments.
-/

namespace FoodApi

/-- A JSON-ish value as it appears in request/response bodies and stored
documents.  Objects are association lists of string keys, as in JS. -/
inductive Value where
  | str (s : String)
  | num (n : Nat)
  | bool (b : Bool)
  | null
  | arr (xs : List Value)
  | obj (fields : List (String × Value))

/-- First value bound to `key` in an association list (JS property read;
`none` models JS `undefined`). -/
def lookupVal : List (String × Value) → String → Option Value
  | [], _ => none
  | (k, v) :: rest, key => if k = key then some v else lookupVal rest key

/-- JS property read `v[key]`: `none` models `undefined` (also for reads on
non-objects, where no own property exists). -/
def getKey : Value → String → Option Value
  | .obj fields, key => lookupVal fields key
  | _, _ => none

/-- JS `delete obj[key]` on an association list: drop the binding. -/
def removeField (l : List (String × Value)) (key : String) : List (String × Value) :=
  l.filter (fun p => p.1 ≠ key)

/-- JS `delete v[key]`.  On a non-object (other than `null`/`undefined`,
which the handlers test for separately) the delete is a silent no-op. -/
def deleteKey : Value → String → Value
  | .obj fields, key => .obj (removeField fields key)
  | v, _ => v

/-- JS assignment `obj[key] = v`: overwrite in place or append. -/
def setField : List (String × Value) → String → Value → List (String × Value)
  | [], key, v => [(key, v)]
  | (k, w) :: rest, key, v =>
      if k = key then (key, v) :: rest else (k, w) :: setField rest key v

/-- JS assignment `v[key] = w`.  Assignment to a property of a primitive is a
silent no-op (non-strict mode); `null`/`undefined` receivers are handled by
the callers before reaching this point. -/
def setKey : Value → String → Value → Value
  | .obj fields, key, w => .obj (setField fields key w)
  | v, _, _ => v

/-- A value is "blank" when it is exactly the empty string. -/
def isBlank : Value → Bool
  | .str s => s = ""
  | _ => false

mutual

/-- Modelled from the spec: `removeBlanks(payload)` from
`lib/remove_blank_fields` (the module is required at
`src/app/routes/food_routes.js:21` but is not under `src/`).  Given a nested
mapping it removes every key whose value is exactly the empty string,
recursively for nested mappings; arrays and non-string falsy values are left
untouched. -/
def removeBlanks : Value → Value
  | .obj fields => .obj (removeBlanksFields fields)
  | .str s => .str s
  | .num n => .num n
  | .bool b => .bool b
  | .null => .null
  | .arr xs => .arr xs

/-- Modelled from the spec: field-wise part of `removeBlanks` on one object's
bindings. -/
def removeBlanksFields : List (String × Value) → List (String × Value)
  | [] => []
  | (k, v) :: rest =>
      if isBlank v then removeBlanksFields rest
      else (k, removeBlanks v) :: removeBlanksFields rest

end

/-- Error kinds a handler can forward to the centralized Express error
responder via `next` (or that Express forwards itself when a handler throws
synchronously).  `typeError` is the raw JS `TypeError` raised by an unguarded
`req.body.food` dereference; it is outside the spec's taxonomy. -/
inductive Err where
  | notFound
  | ownershipMismatch
  | validation
  | storeError
  | typeError
deriving Repr, DecidableEq

/-- Outcome of one handler invocation: a response sent with `res`, or an
error forwarded to the centralized error responder. -/
inductive HResult where
  | ok (status : Nat) (body : Option Value)
  | forwarded (e : Err)

/-- A persisted Food document: the store-assigned id, the `owner` schema
path, and the remaining domain fields (title, text, ...). -/
structure Food where
  id : Nat
  owner : Nat
  fields : List (String × Value)

/-- The document collection: stored foods plus the store's fresh-id counter. -/
structure Store where
  foods : List Food
  nextId : Nat

/-- Which of a request's store calls fail (a rejected promise).  The store
itself is external; these flags range over all its possible failures. -/
structure StoreBehavior where
  findFails : Bool
  createFails : Bool
  updateFails : Bool
  deleteFails : Bool

/-- The all-success store behavior. -/
def allOk : StoreBehavior := ⟨false, false, false, false⟩

/-- `Food.findById`: first document whose id matches. -/
def findById (st : Store) (id : Nat) : Option Food :=
  st.foods.find? (fun f => f.id = id)

/-- `food.toObject()`: the document serialized as a plain JSON object.
(Owner population is part of the external store's query semantics, excluded
by the spec; the owner reference itself is serialized.) -/
def Food.toObject (f : Food) : Value :=
  .obj (("id", .num f.id) :: ("owner", .num f.owner) :: f.fields)

/-- Modelled from the spec: `handle404(record)` from `lib/custom_errors`
(required at `src/app/routes/food_routes.js:14` but not under `src/`): fails
with a NotFound condition if the record is absent, else passes it through
unchanged. -/
def handle404 : Option Food → Except Err Food
  | none => .error .notFound
  | some f => .ok f

/-- Modelled from the spec: `requireOwnership(requesterId, record)` from
`lib/custom_errors` (required at `src/app/routes/food_routes.js:17` but not
under `src/`): fails with an ownership-mismatch condition if the record's
owner differs from the requester, else returns normally. -/
def requireOwnership (requesterId : Nat) (f : Food) : Except Err Unit :=
  if f.owner = requesterId then .ok () else .error .ownershipMismatch

/-- `Food.create(doc)`: assign the fresh id, read the `owner` schema path
from the document (the handler has set it) and append the new record.  A
document without a usable owner reference is a store-level validation
failure. -/
def storeCreate (st : Store) (v : Value) : Except Err (Food × Store) :=
  match v with
  | .obj fl =>
      match lookupVal fl "owner" with
      | some (.num o) =>
          let f : Food := ⟨st.nextId, o, removeField fl "owner"⟩
          .ok (f, ⟨st.foods ++ [f], st.nextId + 1⟩)
      | _ => .error .validation
  | _ => .error .validation

/-- Merge-update (`$set` semantics): apply the payload bindings left to
right onto the stored fields. -/
def mergeFields (orig : List (String × Value)) : List (String × Value) → List (String × Value)
  | [] => orig
  | (k, v) :: rest => mergeFields (setField orig k v) rest

/-- `food.updateOne(payload)` applied to one document: the `owner` schema
path is set when the payload carries one, other payload fields merge into
the stored fields; the id never changes. -/
def applyUpdate (f : Food) (pl : List (String × Value)) : Food :=
  { f with
    owner := match lookupVal pl "owner" with
      | some (.num o) => o
      | _ => f.owner
    fields := mergeFields f.fields (removeField pl "owner") }

/-- Write back an updated document over the one with the same id. -/
def replaceFood (st : Store) (f' : Food) : Store :=
  ⟨st.foods.map (fun g => if g.id = f'.id then f' else g), st.nextId⟩

/-- `food.deleteOne()`: remove the document with that id. -/
def removeFood (st : Store) (id : Nat) : Store :=
  ⟨st.foods.filter (fun f => f.id ≠ id), st.nextId⟩

/-- INDEX handler, `GET /foods` (`food_routes.js:32-45`): `Food.find()`,
serialize each document, respond 200 `{foods: [...]}`; a store error goes to
`.catch(next)`.  No `requireToken` middleware: the requester identity is an
unused part of the request. -/
def indexHandler (b : StoreBehavior) (st : Store) (requester : Option Nat) :
    HResult × Store :=
  if b.findFails then (.forwarded .storeError, st)
  else (.ok 200 (some (.obj [("foods", .arr (st.foods.map Food.toObject))])), st)

/-- SHOW handler, `GET /foods/:id` (`food_routes.js:49-58`):
`Food.findById`, `handle404`, respond 200 `{food: {...}}`; errors go to
`.catch(next)`.  No `requireToken` middleware. -/
def showHandler (b : StoreBehavior) (st : Store) (requester : Option Nat) (id : Nat) :
    HResult × Store :=
  if b.findFails then (.forwarded .storeError, st)
  else
    match handle404 (findById st id) with
    | .error e => (.forwarded e, st)
    | .ok f => (.ok 200 (some (.obj [("food", f.toObject)])), st)

/-- CREATE handler, `POST /foods` (`food_routes.js:62-75`), behind
`requireToken` so `userId` is the authenticated identity.  Line 64
`req.body.food.owner = req.user.id` throws a `TypeError` when `req.body.food`
is `undefined` or `null` (Express forwards the throw to the error responder);
otherwise the owner is forced to the current user and `Food.create` runs,
with errors going to `.catch(next)`. -/
def createHandler (b : StoreBehavior) (st : Store) (userId : Nat) (body : Value) :
    HResult × Store :=
  match getKey body "food" with
  | none => (.forwarded .typeError, st)
  | some .null => (.forwarded .typeError, st)
  | some fv =>
      let fv' := setKey fv "owner" (.num userId)
      if b.createFails then (.forwarded .validation, st)
      else
        match storeCreate st fv' with
        | .error e => (.forwarded e, st)
        | .ok (f, st') => (.ok 201 (some (.obj [("food", f.toObject)])), st')

/-- UPDATE handler, `PATCH /foods/:id` (`food_routes.js:79-98`), behind
`requireToken` and the `removeBlanks` middleware (which sanitizes `req.body`
first).  Line 82 `delete req.body.food.owner` throws a `TypeError` when the
(sanitized) body has no `food` key or a `null` one; then `Food.findById`,
`handle404`, `requireOwnership`, and `food.updateOne(req.body.food)` whose
result is returned into the chain; errors go to `.catch(next)`.  A
non-object update document is a store-level failure. -/
def updateHandler (b : StoreBehavior) (st : Store) (userId : Nat) (id : Nat)
    (body : Value) : HResult × Store :=
  match getKey (removeBlanks body) "food" with
  | none => (.forwarded .typeError, st)
  | some .null => (.forwarded .typeError, st)
  | some fv =>
      let fv' := deleteKey fv "owner"
      if b.findFails then (.forwarded .storeError, st)
      else
        match handle404 (findById st id) with
        | .error e => (.forwarded e, st)
        | .ok f =>
            match requireOwnership userId f with
            | .error e => (.forwarded e, st)
            | .ok _ =>
                if b.updateFails then (.forwarded .storeError, st)
                else
                  match fv' with
                  | .obj pl => (.ok 204 none, replaceFood st (applyUpdate f pl))
                  | _ => (.forwarded .validation, st)

/-- DESTROY handler, `DELETE /foods/:id` (`food_routes.js:102-115`), behind
`requireToken`.  `Food.findById`, `handle404`, `requireOwnership`; then line
109 calls `food.deleteOne()` WITHOUT returning its promise into the chain,
so the 204 response on line 112 is sent whether or not the deletion
succeeds, and a rejected `deleteOne` is never forwarded to `.catch(next)`. -/
def destroyHandler (b : StoreBehavior) (st : Store) (userId : Nat) (id : Nat) :
    HResult × Store :=
  if b.findFails then (.forwarded .storeError, st)
  else
    match handle404 (findById st id) with
    | .error e => (.forwarded e, st)
    | .ok f =>
        match requireOwnership userId f with
        | .error e => (.forwarded e, st)
        | .ok _ =>
            if b.deleteFails then (.ok 204 none, st)
            else (.ok 204 none, removeFood st id)

/-- One public-API operation, with the identity the auth gate attaches
(reads carry an arbitrary, unused requester identity). -/
inductive Op where
  | list (requester : Option Nat)
  | get (requester : Option Nat) (id : Nat)
  | create (userId : Nat) (body : Value)
  | update (userId : Nat) (id : Nat) (body : Value)
  | destroy (userId : Nat) (id : Nat)

/-- Dispatch one operation to its handler. -/
def step (b : StoreBehavior) (st : Store) : Op → HResult × Store
  | .list r => indexHandler b st r
  | .get r id => showHandler b st r id
  | .create u body => createHandler b st u body
  | .update u id body => updateHandler b st u id body
  | .destroy u id => destroyHandler b st u id

/-- Run a sequence of public-API operations, threading the store. -/
def run (b : StoreBehavior) (st : Store) : List Op → Store
  | [] => st
  | op :: ops => run b (step b st op).2 ops

/-- Store sanity: every stored id is below the fresh-id counter and ids are
pairwise distinct (both hold for every store reachable from an empty one). -/
def idsOk (st : Store) : Prop :=
  (∀ f ∈ st.foods, f.id < st.nextId) ∧
    st.foods.Pairwise (fun f g => f.id ≠ g.id)

/-- Modelled from the spec: the `update` operation with its precondition
steps in the spec's stated order -- (1) strip the `owner` key from the
partial payload unconditionally, (2) strip every empty-string field
recursively, (3) load the record by id / NotFound, (4) ownership check /
Forbidden, (5) merge-update.  Written to be compared with `updateHandler`,
in which the `removeBlanks` middleware instead runs before the handler
deletes the `owner` key. -/
def updateSpecOrder (b : StoreBehavior) (st : Store) (userId : Nat) (id : Nat)
    (fl : List (String × Value)) : HResult × Store :=
  let pl := removeBlanksFields (removeField fl "owner")
  if b.findFails then (.forwarded .storeError, st)
  else
    match handle404 (findById st id) with
    | .error e => (.forwarded e, st)
    | .ok f =>
        match requireOwnership userId f with
        | .error e => (.forwarded e, st)
        | .ok _ =>
            if b.updateFails then (.forwarded .storeError, st)
            else (.ok 204 none, replaceFood st (applyUpdate f pl))

/-! ### Association-list lemmas -/

theorem lookupVal_setField_self (l : List (String × Value)) (k : String) (v : Value) :
    lookupVal (setField l k v) k = some v := by
  induction l with
  | nil => simp [setField, lookupVal]
  | cons p rest ih =>
      obtain ⟨k1, w⟩ := p
      by_cases h : k1 = k <;> simp [setField, lookupVal, h, ih]

theorem lookupVal_setField_ne (l : List (String × Value)) (k k' : String) (v : Value)
    (h : k' ≠ k) : lookupVal (setField l k v) k' = lookupVal l k' := by
  induction l with
  | nil => simp [setField, lookupVal, Ne.symm h]
  | cons p rest ih =>
      obtain ⟨k1, w⟩ := p
      by_cases h1 : k1 = k
      · subst h1
        simp [setField, lookupVal, Ne.symm h, h]
      · by_cases h2 : k1 = k' <;> simp [setField, lookupVal, h, h1, h2, ih]

theorem lookupVal_removeField_self (l : List (String × Value)) (k : String) :
    lookupVal (removeField l k) k = none := by
  induction l with
  | nil => simp [removeField, lookupVal]
  | cons p rest ih =>
      obtain ⟨k1, w⟩ := p
      by_cases h : k1 = k <;> simp [removeField, lookupVal, h] at ih ⊢ <;> exact ih

theorem lookupVal_mergeFields_absent (pl : List (String × Value)) :
    ∀ (orig : List (String × Value)) (k : String), lookupVal pl k = none →
      lookupVal (mergeFields orig pl) k = lookupVal orig k := by
  induction pl with
  | nil => intro orig k _; rfl
  | cons p rest ih =>
      intro orig k h
      obtain ⟨k1, v⟩ := p
      simp only [lookupVal] at h
      by_cases h1 : k1 = k
      · simp [h1] at h
      · simp only [h1, if_false] at h
        simpa [mergeFields, lookupVal_setField_ne _ _ _ _ (fun he => h1 he.symm)]
          using ih (setField orig k1 v) k h

theorem removeBlanksFields_eq (l : List (String × Value)) :
    removeBlanksFields l =
      (l.filter (fun p => !isBlank p.2)).map (fun p => (p.1, removeBlanks p.2)) := by
  induction l with
  | nil => rfl
  | cons p rest ih =>
      obtain ⟨k, v⟩ := p
      cases h : isBlank v <;> simp [removeBlanksFields, h, ih]

theorem lookupVal_removeBlanksFields_absent (l : List (String × Value)) (k : String)
    (h : lookupVal l k = none) : lookupVal (removeBlanksFields l) k = none := by
  induction l with
  | nil => rfl
  | cons p rest ih =>
      obtain ⟨k1, v⟩ := p
      simp only [lookupVal] at h
      by_cases h1 : k1 = k
      · simp [h1] at h
      · simp only [h1, if_false] at h
        cases hb : isBlank v <;> simp [removeBlanksFields, hb, lookupVal, h1, ih h]

theorem removeField_removeBlanksFields_comm (l : List (String × Value)) (key : String) :
    removeField (removeBlanksFields l) key = removeBlanksFields (removeField l key) := by
  induction l with
  | nil => rfl
  | cons p rest ih =>
      obtain ⟨k, v⟩ := p
      simp only [removeField, ne_eq, decide_not] at ih ⊢
      by_cases hk : k = key <;> cases hb : isBlank v <;>
        simp [removeBlanksFields, hb, hk, ih]

theorem lookupVal_of_deleteKey (v : Value) (k : String) (pl : List (String × Value))
    (h : deleteKey v k = .obj pl) : lookupVal pl k = none := by
  cases v <;> simp [deleteKey] at h
  subst h
  exact lookupVal_removeField_self _ _

/-! ### Store lookup lemmas -/

theorem handle404_ok (o : Option Food) (f : Food) (h : handle404 o = .ok f) :
    o = some f := by
  cases o with
  | none => simp [handle404] at h
  | some g => simpa [handle404] using h

theorem findById_mem (st : Store) (id : Nat) (f : Food) (h : findById st id = some f) :
    f ∈ st.foods :=
  List.mem_of_find?_eq_some h

theorem findById_id (st : Store) (id : Nat) (f : Food) (h : findById st id = some f) :
    f.id = id := by
  unfold findById at h
  have := List.find?_some h
  simpa using this

theorem findById_removeFood (st : Store) (id : Nat) :
    findById (removeFood st id) id = none := by
  unfold findById removeFood
  apply List.find?_eq_none.2
  intro f hf
  simpa using (List.mem_filter.1 hf).2

theorem find?_map_replace (l : List Food) (id : Nat) (f f' : Food)
    (hfind : l.find? (fun g => g.id = id) = some f) (hid : f'.id = id) :
    (l.map (fun g => if g.id = f'.id then f' else g)).find? (fun g => g.id = id) =
      some f' := by
  induction l with
  | nil => simp at hfind
  | cons g rest ih =>
      simp only [List.map_cons]
      by_cases hg : g.id = id
      · have h1 : (if g.id = f'.id then f' else g) = f' := by rw [hid]; simp [hg]
        rw [h1]
        exact List.find?_cons_of_pos _ (by simp [hid])
      · have h1 : (if g.id = f'.id then f' else g) = g := by rw [hid]; simp [hg]
        rw [h1]
        rw [List.find?_cons_of_neg _ (by simp [hg])]
        rw [List.find?_cons_of_neg _ (by simp [hg])] at hfind
        exact ih hfind

theorem findById_replaceFood (st : Store) (id : Nat) (f f' : Food)
    (hfind : findById st id = some f) (hid : f'.id = id) :
    findById (replaceFood st f') id = some f' := by
  unfold findById at hfind
  exact find?_map_replace st.foods id f f' hfind hid

/-! ### Handler store-shape lemmas -/

theorem indexHandler_store (b : StoreBehavior) (st : Store) (r : Option Nat) :
    (indexHandler b st r).2 = st := by
  unfold indexHandler
  split <;> rfl

theorem showHandler_store (b : StoreBehavior) (st : Store) (r : Option Nat) (id : Nat) :
    (showHandler b st r id).2 = st := by
  unfold showHandler
  split
  · rfl
  · split <;> rfl

theorem storeCreate_ok (st : Store) (v : Value) (f : Food) (st' : Store)
    (h : storeCreate st v = .ok (f, st')) :
    f.id = st.nextId ∧ st'.foods = st.foods ++ [f] ∧ st'.nextId = st.nextId + 1 := by
  unfold storeCreate at h
  split at h
  · split at h
    · simp only [Except.ok.injEq, Prod.mk.injEq] at h
      obtain ⟨hf, hst⟩ := h
      subst hf
      subst hst
      exact ⟨rfl, rfl, rfl⟩
    · simp at h
  · simp at h

theorem createHandler_origin (b : StoreBehavior) (st : Store) (u : Nat) (body : Value)
    (f' : Food) (h : f' ∈ (createHandler b st u body).2.foods) :
    f' ∈ st.foods ∨ st.nextId ≤ f'.id := by
  simp only [createHandler] at h
  split at h
  · exact .inl h
  · exact .inl h
  · split at h
    · exact .inl h
    · split at h
      · exact .inl h
      · rename_i f1 st1 heq
        obtain ⟨hid, hfoods, _⟩ := storeCreate_ok st _ f1 st1 heq
        rw [hfoods] at h
        rcases List.mem_append.1 h with h1 | h1
        · exact .inl h1
        · simp only [List.mem_singleton] at h1
          subst h1
          exact .inr (le_of_eq hid.symm)

theorem updateHandler_origin (b : StoreBehavior) (st : Store) (u : Nat) (id : Nat)
    (body : Value) (f' : Food) (h : f' ∈ (updateHandler b st u id body).2.foods) :
    ∃ f ∈ st.foods, f.id = f'.id ∧ f.owner = f'.owner := by
  simp only [updateHandler] at h
  split at h
  · exact ⟨f', h, rfl, rfl⟩
  · exact ⟨f', h, rfl, rfl⟩
  · split at h
    · exact ⟨f', h, rfl, rfl⟩
    · split at h
      · exact ⟨f', h, rfl, rfl⟩
      · split at h
        · exact ⟨f', h, rfl, rfl⟩
        · split at h
          · exact ⟨f', h, rfl, rfl⟩
          · split at h
            · rename_i ofv fv hnn hgk hff e404 f4 heq404 eown un heqown hupd v0 pl hdel
              have hmem := findById_mem st id f4 (handle404_ok _ _ heq404)
              rcases List.mem_map.1 h with ⟨g, hg, hrepl⟩
              by_cases hcase : g.id = (applyUpdate f4 pl).id
              · rw [if_pos hcase] at hrepl
                subst hrepl
                refine ⟨f4, hmem, rfl, ?_⟩
                have hno := lookupVal_of_deleteKey fv "owner" pl hdel
                simp [applyUpdate, hno]
              · rw [if_neg hcase] at hrepl
                subst hrepl
                exact ⟨g, hg, rfl, rfl⟩
            · exact ⟨f', h, rfl, rfl⟩

theorem destroyHandler_origin (b : StoreBehavior) (st : Store) (u : Nat) (id : Nat)
    (f' : Food) (h : f' ∈ (destroyHandler b st u id).2.foods) : f' ∈ st.foods := by
  simp only [destroyHandler] at h
  split at h
  · exact h
  · split at h
    · exact h
    · split at h
      · exact h
      · split at h
        · exact h
        · exact (List.mem_filter.1 h).1

theorem createHandler_nextId_le (b : StoreBehavior) (st : Store) (u : Nat) (body : Value) :
    st.nextId ≤ (createHandler b st u body).2.nextId := by
  simp only [createHandler]
  split
  · exact le_refl _
  · exact le_refl _
  · split
    · exact le_refl _
    · split
      · exact le_refl _
      · rename_i f1 st1 heq
        obtain ⟨_, _, hn⟩ := storeCreate_ok st _ f1 st1 heq
        show st.nextId ≤ st1.nextId
        rw [hn]
        exact Nat.le_succ _

theorem updateHandler_nextId (b : StoreBehavior) (st : Store) (u id : Nat) (body : Value) :
    (updateHandler b st u id body).2.nextId = st.nextId := by
  simp only [updateHandler]
  split
  · rfl
  · rfl
  · split
    · rfl
    · split
      · rfl
      · split
        · rfl
        · split
          · rfl
          · split <;> rfl

theorem destroyHandler_nextId (b : StoreBehavior) (st : Store) (u id : Nat) :
    (destroyHandler b st u id).2.nextId = st.nextId := by
  simp only [destroyHandler]
  split
  · rfl
  · split
    · rfl
    · split
      · rfl
      · split <;> rfl

theorem stepOrigin (b : StoreBehavior) (st : Store) (op : Op) (f' : Food)
    (h : f' ∈ (step b st op).2.foods) :
    (∃ f ∈ st.foods, f.id = f'.id ∧ f.owner = f'.owner) ∨ st.nextId ≤ f'.id := by
  cases op with
  | list r =>
      simp only [step] at h
      rw [indexHandler_store] at h
      exact .inl ⟨f', h, rfl, rfl⟩
  | get r id =>
      simp only [step] at h
      rw [showHandler_store] at h
      exact .inl ⟨f', h, rfl, rfl⟩
  | create u body =>
      exact (createHandler_origin b st u body f' h).imp (fun h1 => ⟨f', h1, rfl, rfl⟩) id
  | update u id body => exact .inl (updateHandler_origin b st u id body f' h)
  | destroy u id => exact .inl ⟨f', destroyHandler_origin b st u id f' h, rfl, rfl⟩

theorem step_nextId_le (b : StoreBehavior) (st : Store) (op : Op) :
    st.nextId ≤ (step b st op).2.nextId := by
  cases op with
  | list r => simp only [step]; rw [indexHandler_store]
  | get r id => simp only [step]; rw [showHandler_store]
  | create u body => exact createHandler_nextId_le b st u body
  | update u id body => simp only [step]; rw [updateHandler_nextId]
  | destroy u id => simp only [step]; rw [destroyHandler_nextId]

theorem runOrigin (b : StoreBehavior) (ops : List Op) :
    ∀ (st : Store) (f' : Food), f' ∈ (run b st ops).foods →
      (∃ f ∈ st.foods, f.id = f'.id ∧ f.owner = f'.owner) ∨ st.nextId ≤ f'.id := by
  induction ops with
  | nil => intro st f' h; exact .inl ⟨f', h, rfl, rfl⟩
  | cons op rest ih =>
      intro st f' h
      simp only [run] at h
      rcases ih (step b st op).2 f' h with ⟨g, hg, hid, hown⟩ | hle
      · rcases stepOrigin b st op g hg with ⟨f, hf, hid2, hown2⟩ | hle2
        · exact .inl ⟨f, hf, hid2.trans hid, hown2.trans hown⟩
        · exact .inr (hid ▸ hle2)
      · exact .inr (le_trans (step_nextId_le b st op) hle)

theorem pairwise_ne_id (l : List Food) :
    l.Pairwise (fun f g => f.id ≠ g.id) → ∀ f ∈ l, ∀ g ∈ l, f.id = g.id → f = g := by
  induction l with
  | nil => intro _ f hf; cases hf
  | cons a rest ih =>
      intro h f hf g hg hid
      rcases List.pairwise_cons.1 h with ⟨ha, hrest⟩
      rcases List.mem_cons.1 hf with rfl | hf1
      · rcases List.mem_cons.1 hg with rfl | hg1
        · rfl
        · exact absurd hid (ha g hg1)
      · rcases List.mem_cons.1 hg with rfl | hg1
        · exact absurd hid.symm (ha f hf1)
        · exact ih hrest f hf1 g hg1 hid

/-- Claim C1: Over every sequence of public-API operations (list, get, create,
update, destroy) run from a sane store, a record's owner never changes: any
record present after the sequence that shares its id with a record present
before it has that record's owner.  Creation fixes the owner and nothing --
in particular not a PATCH whose payload carries an `owner` key, which the
update handler deletes before `updateOne` -- changes it afterwards. -/
theorem owner_fixed_at_creation (b : StoreBehavior) (st : Store) (ops : List Op)
    (f f' : Food) (hwf : idsOk st) (hf : f ∈ st.foods)
    (hf' : f' ∈ (run b st ops).foods) (hid : f'.id = f.id) :
    f'.owner = f.owner := by
  rcases runOrigin b ops st f' hf' with ⟨g, hg, hgid, hgown⟩ | hle
  · have hgf : g = f := pairwise_ne_id st.foods hwf.2 g hg f hf (hgid.trans hid)
    rw [← hgown, hgf]
  · exact absurd (hwf.1 f hf) (not_lt.2 (hid ▸ hle))

/-- Witness for C1: a store holding food 0 owned by user 7; a PATCH by user
7 whose payload tries to set `owner` to 9 leaves the stored owner at 7. -/
theorem owner_fixed_at_creation_witness :
    idsOk ⟨[⟨0, 7, []⟩], 1⟩ ∧
      (⟨0, 7, []⟩ : Food) ∈ (⟨[⟨0, 7, []⟩], 1⟩ : Store).foods ∧
      (⟨0, 7, [("title", .str "x")]⟩ : Food) ∈
        (run allOk ⟨[⟨0, 7, []⟩], 1⟩
          [.update 7 0 (.obj [("food",
            .obj [("owner", .num 9), ("title", .str "x")])])]).foods ∧
      (⟨0, 7, [("title", .str "x")]⟩ : Food).owner = (⟨0, 7, []⟩ : Food).owner := by
  have hwf : idsOk (⟨[⟨0, 7, []⟩], 1⟩ : Store) := by
    constructor
    · intro f hf
      simp only [List.mem_singleton] at hf
      rw [hf]
      decide
    · simp
  have hmem1 : (⟨0, 7, []⟩ : Food) ∈ (⟨[⟨0, 7, []⟩], 1⟩ : Store).foods :=
    List.mem_singleton.2 rfl
  have hmem2 : (⟨0, 7, [("title", Value.str "x")]⟩ : Food) ∈
      (run allOk ⟨[⟨0, 7, []⟩], 1⟩
        [.update 7 0 (.obj [("food",
          .obj [("owner", .num 9), ("title", .str "x")])])]).foods := by
    show (⟨0, 7, [("title", Value.str "x")]⟩ : Food) ∈
      [(⟨0, 7, [("title", Value.str "x")]⟩ : Food)]
    exact List.mem_singleton.2 rfl
  exact ⟨hwf, hmem1, hmem2,
    owner_fixed_at_creation allOk _ _ _ _ hwf hmem1 hmem2 rfl⟩

/-! ### Evaluation lemmas for single handlers -/

theorem showHandler_found (b : StoreBehavior) (st : Store) (r : Option Nat) (id : Nat)
    (f : Food) (hb : b.findFails = false) (hfind : findById st id = some f) :
    showHandler b st r id = (.ok 200 (some (.obj [("food", f.toObject)])), st) := by
  unfold showHandler
  rw [hb, hfind]
  simp [handle404]

theorem showHandler_missing (b : StoreBehavior) (st : Store) (r : Option Nat) (id : Nat)
    (hb : b.findFails = false) (hfind : findById st id = none) :
    showHandler b st r id = (.forwarded .notFound, st) := by
  unfold showHandler
  rw [hb, hfind]
  simp [handle404]

theorem createHandler_ok (b : StoreBehavior) (st : Store) (u : Nat) (body : Value)
    (fl : List (String × Value)) (hfood : getKey body "food" = some (.obj fl))
    (hb : b.createFails = false) :
    createHandler b st u body =
      (.ok 201 (some (.obj [("food",
          (⟨st.nextId, u, removeField (setField fl "owner" (.num u)) "owner"⟩ :
            Food).toObject)])),
        ⟨st.foods ++
            [⟨st.nextId, u, removeField (setField fl "owner" (.num u)) "owner"⟩],
          st.nextId + 1⟩) := by
  have hset := lookupVal_setField_self fl "owner" (Value.num u)
  unfold createHandler storeCreate
  rw [hfood, hb]
  simp [setKey, hset]

theorem updateHandler_ok (b : StoreBehavior) (st : Store) (u idv : Nat) (body : Value)
    (pl : List (String × Value)) (f : Food)
    (hfood : getKey (removeBlanks body) "food" = some (.obj pl))
    (hb : b.findFails = false) (hupd : b.updateFails = false)
    (hex : findById st idv = some f) (hown : f.owner = u) :
    updateHandler b st u idv body =
      (.ok 204 none, replaceFood st (applyUpdate f (removeField pl "owner"))) := by
  unfold updateHandler
  rw [hfood, hb, hex]
  simp [handle404, requireOwnership, hown, hupd, deleteKey]

/-! ### The claims -/

/-- Claim C2: A create that reaches the store always persists the
authenticated user as owner -- any client-supplied `owner` in the payload is
overwritten by `req.body.food.owner = req.user.id` -- and responds 201 with
a `{food: ...}` body whose `food.owner` is the authenticated user id. -/
theorem create_forces_owner (b : StoreBehavior) (st : Store) (u : Nat) (body : Value)
    (fl : List (String × Value)) (hfood : getKey body "food" = some (.obj fl))
    (hb : b.createFails = false) :
    ∃ f st', createHandler b st u body =
        (.ok 201 (some (.obj [("food", f.toObject)])), st') ∧
      f.owner = u ∧ f ∈ st'.foods ∧ getKey f.toObject "owner" = some (.num u) := by
  refine ⟨⟨st.nextId, u, removeField (setField fl "owner" (.num u)) "owner"⟩,
    ⟨st.foods ++ [⟨st.nextId, u, removeField (setField fl "owner" (.num u)) "owner"⟩],
      st.nextId + 1⟩,
    createHandler_ok b st u body fl hfood hb, rfl, ?_, ?_⟩
  · simp
  · rfl

/-- Witness for C2: creating `{food: {owner: 3, title: "Soup"}}` as user 7
persists and returns owner 7. -/
theorem create_forces_owner_witness :
    getKey (.obj [("food", .obj [("owner", .num 3), ("title", .str "Soup")])]) "food" =
        some (.obj [("owner", .num 3), ("title", .str "Soup")]) ∧
      allOk.createFails = false ∧
      ∃ f st', createHandler allOk ⟨[], 0⟩ 7
          (.obj [("food", .obj [("owner", .num 3), ("title", .str "Soup")])]) =
          (.ok 201 (some (.obj [("food", f.toObject)])), st') ∧
        f.owner = 7 ∧ f ∈ st'.foods ∧ getKey f.toObject "owner" = some (.num 7) :=
  ⟨rfl, rfl, create_forces_owner allOk ⟨[], 0⟩ 7 _ _ rfl rfl⟩

/-- Claim C7: With the store read succeeding, `GET /foods/:id` forwards
NotFound exactly when no record with the requested id exists; when one
exists it responds 200 with a `{food: ...}` body whose `food.id` equals the
requested id, and the store is never changed. -/
theorem get_404_iff_missing (b : StoreBehavior) (st : Store) (r : Option Nat) (id : Nat)
    (hb : b.findFails = false) :
    ((showHandler b st r id).1 = .forwarded .notFound ↔ findById st id = none) ∧
      (∀ f, findById st id = some f →
        showHandler b st r id = (.ok 200 (some (.obj [("food", f.toObject)])), st) ∧
          getKey f.toObject "id" = some (.num id)) := by
  constructor
  · cases hfind : findById st id with
    | none => simp [showHandler_missing b st r id hb hfind]
    | some f => simp [showHandler_found b st r id f hb hfind]
  · intro f hfind
    refine ⟨showHandler_found b st r id f hb hfind, ?_⟩
    have hid := findById_id st id f hfind
    simp [Food.toObject, getKey, lookupVal, hid]

/-- Witness for C7: on a one-record store, id 0 is found (the 404 side of
the iff is concretely false on both sides) and id 5 is 404. -/
theorem get_404_iff_missing_witness :
    allOk.findFails = false ∧
      ((showHandler allOk ⟨[⟨0, 7, []⟩], 1⟩ none 5).1 = .forwarded .notFound ↔
        findById ⟨[⟨0, 7, []⟩], 1⟩ 5 = none) :=
  ⟨rfl, (get_404_iff_missing allOk ⟨[⟨0, 7, []⟩], 1⟩ none 5 rfl).1⟩

/-- Claim C9: The read handlers run without `requireToken` and never consult
the requester: for every store and behavior, index and show results are
identical across any two requester identities. -/
theorem reads_requester_independent (b : StoreBehavior) (st : Store)
    (r1 r2 : Option Nat) (id : Nat) :
    indexHandler b st r1 = indexHandler b st r2 ∧
      showHandler b st r1 id = showHandler b st r2 id :=
  ⟨rfl, rfl⟩

/-- Claim C10: The create and update handlers dereference `req.body.food`
without a guard (`food_routes.js:64` and `:82`): when the body has no `food`
key both fail with a raw `TypeError` -- outside the NotFound / ownership /
validation taxonomy -- before any store call, leaving the store unchanged. -/
theorem missing_food_key_type_error (b : StoreBehavior) (st : Store) (u id : Nat)
    (body : Value) (hmiss : getKey body "food" = none) :
    createHandler b st u body = (.forwarded .typeError, st) ∧
      updateHandler b st u id body = (.forwarded .typeError, st) := by
  constructor
  · unfold createHandler
    rw [hmiss]
  · have hmiss2 : getKey (removeBlanks body) "food" = none := by
      cases body with
      | obj bl =>
          simp only [removeBlanks, getKey] at hmiss ⊢
          exact lookupVal_removeBlanksFields_absent bl "food" hmiss
      | str s => exact hmiss
      | num n => exact hmiss
      | bool b0 => exact hmiss
      | null => exact hmiss
      | arr xs => exact hmiss
    unfold updateHandler
    rw [hmiss2]

/-- Witness for C10: a body with no `food` key (the empty object) makes both
mutating handlers fail with the raw type error. -/
theorem missing_food_key_type_error_witness :
    getKey (.obj []) "food" = none ∧
      createHandler allOk ⟨[], 0⟩ 7 (.obj []) = (.forwarded .typeError, ⟨[], 0⟩) ∧
      updateHandler allOk ⟨[], 0⟩ 7 0 (.obj []) = (.forwarded .typeError, ⟨[], 0⟩) :=
  ⟨rfl, (missing_food_key_type_error allOk ⟨[], 0⟩ 7 0 (.obj []) rfl).1,
    (missing_food_key_type_error allOk ⟨[], 0⟩ 7 0 (.obj []) rfl).2⟩

/-- Claim C3: A PATCH or DELETE on a record owned by user A, attempted by an
authenticated user B ≠ A, forwards the ownership-mismatch error and leaves
the store unchanged -- for every store behavior, so the `updateOne` /
`deleteOne` store calls are never reached. -/
theorem mismatched_owner_mutations_fail (b : StoreBehavior) (st : Store)
    (idv uA uB : Nat) (f : Food) (body fv : Value)
    (hb : b.findFails = false)
    (hex : findById st idv = some f) (howner : f.owner = uA) (hne : uB ≠ uA)
    (hfood : getKey (removeBlanks body) "food" = some fv) (hnn : fv ≠ .null) :
    updateHandler b st uB idv body = (.forwarded .ownershipMismatch, st) ∧
      destroyHandler b st uB idv = (.forwarded .ownershipMismatch, st) := by
  have hro : requireOwnership uB f = .error .ownershipMismatch := by
    unfold requireOwnership
    rw [howner]
    simp [Ne.symm hne]
  constructor
  · unfold updateHandler
    rw [hfood, hb, hex]
    cases fv
    case null => exact absurd rfl hnn
    all_goals simp [handle404, hro]
  · unfold destroyHandler
    rw [hb, hex]
    simp [handle404, hro]

/-- Witness for C3: user 8 PATCHing and DELETEing food 0 owned by user 7
gets the ownership-mismatch error and the store keeps the record. -/
theorem mismatched_owner_mutations_fail_witness :
    findById ⟨[⟨0, 7, []⟩], 1⟩ 0 = some ⟨0, 7, []⟩ ∧ (8 : Nat) ≠ 7 ∧
      updateHandler allOk ⟨[⟨0, 7, []⟩], 1⟩ 8 0 (.obj [("food", .obj [])]) =
        (.forwarded .ownershipMismatch, ⟨[⟨0, 7, []⟩], 1⟩) ∧
      destroyHandler allOk ⟨[⟨0, 7, []⟩], 1⟩ 8 0 =
        (.forwarded .ownershipMismatch, ⟨[⟨0, 7, []⟩], 1⟩) := by
  have h := mismatched_owner_mutations_fail allOk ⟨[⟨0, 7, []⟩], 1⟩ 0 7 8 ⟨0, 7, []⟩
    (.obj [("food", .obj [])]) (.obj []) rfl rfl rfl (by decide) rfl
    (fun hcon => Value.noConfusion hcon)
  exact ⟨rfl, by decide, h.1, h.2⟩

/-- Claim C8: With the store's read and delete succeeding, a DELETE of an
owned record responds 204 and removes it, and repeating the same DELETE
forwards NotFound -- never 204 again. -/
theorem destroy_then_destroy_404 (b : StoreBehavior) (st : Store) (u idv : Nat)
    (f : Food) (hb : b.findFails = false) (hdel : b.deleteFails = false)
    (hex : findById st idv = some f) (hown : f.owner = u) :
    destroyHandler b st u idv = (.ok 204 none, removeFood st idv) ∧
      destroyHandler b (removeFood st idv) u idv =
        (.forwarded .notFound, removeFood st idv) := by
  have hro : requireOwnership u f = .ok () := by
    unfold requireOwnership
    rw [hown]
    simp
  constructor
  · unfold destroyHandler
    rw [hb, hex]
    simp [handle404, hro, hdel]
  · unfold destroyHandler
    rw [hb, findById_removeFood]
    simp [handle404]

/-- Witness for C8: user 7 deletes food 0 twice; the first DELETE is a 204
removing the record, the second forwards NotFound. -/
theorem destroy_then_destroy_404_witness :
    findById ⟨[⟨0, 7, []⟩], 1⟩ 0 = some ⟨0, 7, []⟩ ∧
      destroyHandler allOk ⟨[⟨0, 7, []⟩], 1⟩ 7 0 =
        (.ok 204 none, removeFood ⟨[⟨0, 7, []⟩], 1⟩ 0) ∧
      destroyHandler allOk (removeFood ⟨[⟨0, 7, []⟩], 1⟩ 0) 7 0 =
        (.forwarded .notFound, removeFood ⟨[⟨0, 7, []⟩], 1⟩ 0) := by
  have h := destroy_then_destroy_404 allOk ⟨[⟨0, 7, []⟩], 1⟩ 7 0 ⟨0, 7, []⟩
    rfl rfl rfl rfl
  exact ⟨rfl, h.1, h.2⟩

/-- Claim C5: For a PATCH body of the API's `{food: {...}}` shape, the
handler -- in which the `removeBlanks` middleware runs first and the handler
then deletes the `owner` key -- computes exactly the spec's stated
precondition order: owner stripped first, empty-string fields stripped
second, both before the record is loaded. -/
theorem update_precondition_order (b : StoreBehavior) (st : Store) (u idv : Nat)
    (fl : List (String × Value)) :
    updateHandler b st u idv (.obj [("food", .obj fl)]) =
      updateSpecOrder b st u idv fl := by
  unfold updateHandler updateSpecOrder
  simp only [removeBlanks, removeBlanksFields, isBlank, getKey, lookupVal, deleteKey,
    reduceIte]
  rw [removeField_removeBlanksFields_comm]

/-- Claim C6: PATCH with `{food: {title: "", text: "ok"}}` on an owned record
succeeds, keeps the stored `title`, and sets `text` to `"ok"`; in general
exactly the empty-string keys are dropped from a payload (recursively, with
arrays and the non-string falsy values 0, false, null untouched), and keys
absent from the sanitized payload keep their prior values under the
merge-update. -/
theorem update_drops_blank_fields (b : StoreBehavior) (st : Store) (u idv : Nat)
    (f : Food) (hb : b.findFails = false) (hupd : b.updateFails = false)
    (hex : findById st idv = some f) (hown : f.owner = u) :
    (∃ f', updateHandler b st u idv
          (.obj [("food", .obj [("title", .str ""), ("text", .str "ok")])]) =
        (.ok 204 none, replaceFood st f') ∧
      f'.id = f.id ∧ f'.owner = f.owner ∧
      lookupVal f'.fields "title" = lookupVal f.fields "title" ∧
      lookupVal f'.fields "text" = some (.str "ok") ∧
      findById (replaceFood st f') idv = some f') ∧
    (∀ l, removeBlanksFields l =
      (l.filter (fun p => !isBlank p.2)).map (fun p => (p.1, removeBlanks p.2))) ∧
    (∀ xs, removeBlanks (.arr xs) = .arr xs) ∧
    removeBlanks (.num 0) = .num 0 ∧ removeBlanks (.bool false) = .bool false ∧
    removeBlanks .null = .null ∧
    (∀ orig pl k, lookupVal pl k = none →
      lookupVal (mergeFields orig pl) k = lookupVal orig k) := by
  refine ⟨⟨applyUpdate f [("text", .str "ok")], ?_, rfl, rfl, ?_, ?_, ?_⟩,
    removeBlanksFields_eq, fun xs => rfl, rfl, rfl, rfl,
    fun orig pl k h => lookupVal_mergeFields_absent pl orig k h⟩
  · exact updateHandler_ok b st u idv _ [("text", .str "ok")] f rfl hb hupd hex hown
  · exact lookupVal_setField_ne f.fields "text" "title" (.str "ok") (by decide)
  · exact lookupVal_setField_self f.fields "text" (.str "ok")
  · exact findById_replaceFood st idv f _ hex (findById_id st idv f hex)

/-- Witness for C6: food 0 owned by 7 stores `title: "Beans"`; the PATCH
keeps the title and sets the text. -/
theorem update_drops_blank_fields_witness :
    findById ⟨[⟨0, 7, [("title", .str "Beans")]⟩], 1⟩ 0 =
        some ⟨0, 7, [("title", .str "Beans")]⟩ ∧
      ∃ f', updateHandler allOk ⟨[⟨0, 7, [("title", .str "Beans")]⟩], 1⟩ 7 0
            (.obj [("food", .obj [("title", .str ""), ("text", .str "ok")])]) =
          (.ok 204 none, replaceFood ⟨[⟨0, 7, [("title", .str "Beans")]⟩], 1⟩ f') ∧
        f'.id = (⟨0, 7, [("title", .str "Beans")]⟩ : Food).id ∧
        f'.owner = (⟨0, 7, [("title", .str "Beans")]⟩ : Food).owner ∧
        lookupVal f'.fields "title" =
          lookupVal (⟨0, 7, [("title", .str "Beans")]⟩ : Food).fields "title" ∧
        lookupVal f'.fields "text" = some (.str "ok") ∧
        findById (replaceFood ⟨[⟨0, 7, [("title", .str "Beans")]⟩], 1⟩ f') 0 =
          some f' := by
  have h := update_drops_blank_fields allOk ⟨[⟨0, 7, [("title", .str "Beans")]⟩], 1⟩ 7 0
    ⟨0, 7, [("title", .str "Beans")]⟩ rfl rfl rfl rfl
  exact ⟨rfl, h.1⟩

/-- Claim C4, code bug at `food_routes.js:109`: `food.deleteOne()` is not
returned into the promise chain, so its failure never reaches
`.catch(next)`: with the store's delete rejecting, the destroy handler on an
owned, present record still responds 204 and the record is still in the
store -- against the code's own comment ("send back 204 and no content if
the deletion succeeded") and the spec's propagation policy that every
failure is forwarded to the centralized error responder. -/
theorem destroy_swallows_delete_failure :
    destroyHandler ⟨false, false, false, true⟩ ⟨[⟨0, 7, []⟩], 1⟩ 7 0 =
        (.ok 204 none, ⟨[⟨0, 7, []⟩], 1⟩) ∧
      findById ⟨[⟨0, 7, []⟩], 1⟩ 0 = some ⟨0, 7, []⟩ :=
  ⟨rfl, rfl⟩

end FoodApi
